import Mathlib

/-!
# Verification of the CMRX concurrency core

Shallow embedding of the CMRX kernel's lock primitives (`src/lib/mutex.c`),
scheduler entry points (`src/os/arch/arm/sched.c`) and cross-process call
engine (`src/os/arch/arm/rpc.c`), together with proofs of the specification
claims about them.

Machine integers are modelled as `Nat` with explicit `% 2^w` where the byte
or word width matters.  Error codes whose numeric values live in headers not
part of the provided sources are modelled as distinct nonzero integers.
-/

namespace CMRX

/-! ## Error codes

Modelled from the spec: the exact numeric values are defined in
`cmrx/defines.h`, which is not among the provided sources.  The spec only
distinguishes success (0) from distinct nonzero error codes, surfaced to the
caller as ordinary negative return values. -/

/-- Modelled from the spec: success result code. -/
def E_OK : Int := 0

/-- Modelled from the spec: lock owned by a different identity / busy. -/
def E_BUSY : Int := -2

/-- Modelled from the spec: deadlock-style error on a raced atomic claim. -/
def E_DEADLK : Int := -3

/-- Modelled from the spec: invalid or duplicate configuration. -/
def E_INVALID : Int := -4

/-- Modelled from the spec: id out of table range. -/
def E_OUT_OF_RANGE : Int := -5

/-- Modelled from the spec: unresolved / unauthorized address. -/
def E_INVALID_ADDRESS : Int := -6

/-- Modelled from the spec: per-thread call stack at capacity. -/
def E_IN_TOO_DEEP : Int := -7

/-- `#define E_VTABLE_UNKNOWN 0xFF` (src/os/arch/arm/rpc.c line 14): sentinel
returned by `get_vtable_process` when the exporting process is unresolvable.
The same byte value is the unowned-lock sentinel in `mutex.c`. -/
def E_VTABLE_UNKNOWN : Nat := 0xFF

/-! ## Compile-time configuration (from the kernel configuration header) -/

/-- `#define OS_PROCESSES 8`: capacity of the process table. -/
def OS_PROCESSES : Nat := 8

/-- `#define OS_TASK_MPU_REGIONS 5`: number of MPU regions per process. -/
def OS_TASK_MPU_REGIONS : Nat := 5

/-! ## Lock objects (`mutex_t` / `futex_t`)

Both lock structures expose byte fields `state`, `owner` and `flags`.
`state` is 0/1 for the binary lock and the current depth for the recursive
futex; `owner` is a thread id with `0xFF` meaning unowned. -/

structure Mutex where
  state : Nat
  owner : Nat
  flags : Nat
deriving DecidableEq, Repr

/-- `MUTEX_INITIALIZED` flag bit (value modelled; only 0 vs nonzero matters). -/
def MUTEX_INITIALIZED : Nat := 1

/-- Two's-complement reinterpretation of a 32-bit register, used to model the
ARM signed comparison `CMP`/`BGT` in `__futex_fast_lock`. -/
def toSigned32 (x : Nat) : Int :=
  if x % 2 ^ 32 < 2 ^ 31 then ((x % 2 ^ 32 : Nat) : Int)
  else ((x % 2 ^ 32 : Nat) : Int) - 2 ^ 32

/-- `__futex_fast_lock` (src/lib/mutex.c lines 16-56), the depth-limited
atomic claim primitive, written in inline assembly.  It loads `state`
(exclusively) and `owner`; fails if the futex is owned by someone else
(`owner ≠ 0xFF` and `owner ≠ thread_id`), or if `state > max_depth` under
the signed comparison `BGT`; otherwise it stores `state + 1` back with
`STREXB` (a byte store, hence `% 256`).  `spurious = true` models a
store-exclusive failure, which makes the whole attempt fail with 1.
The primitive itself never writes `owner`. -/
def __futex_fast_lock (futex : Mutex) (thread_id : Nat) (max_depth : Nat)
    (spurious : Bool) : Int × Mutex :=
  let mutexState := futex.state
  let mutexOwner := futex.owner
  if mutexOwner ≠ 0xFF ∧ mutexOwner ≠ thread_id then
    (1, futex)
  else if toSigned32 mutexState > toSigned32 max_depth then
    (1, futex)
  else if spurious then
    (1, futex)
  else
    (0, { futex with state := (mutexState + 1) % 256 })

/-- `__futex_fast_unlock` (src/lib/mutex.c lines 68-102): fails (returns 1)
if `state` is zero (`CBZ`) or the caller is not the recorded owner;
otherwise stores `state - 1` back with `STREXB`.  `spurious = true` models a
store-exclusive failure. -/
def __futex_fast_unlock (futex : Mutex) (thread_id : Nat)
    (spurious : Bool) : Int × Mutex :=
  let mutexState := futex.state
  let mutexOwner := futex.owner
  if mutexState = 0 then
    (1, futex)
  else if mutexOwner ≠ thread_id then
    (1, futex)
  else if spurious then
    (1, futex)
  else
    (0, { futex with state := (mutexState - 1) % 256 })

/-- `mutex_init` (src/lib/mutex.c lines 104-110). -/
def mutex_init (_m : Mutex) : Int × Mutex :=
  (0, { owner := 0xFF, flags := MUTEX_INITIALIZED, state := 0 })

/-- `mutex_trylock` (src/lib/mutex.c lines 151-176).  `thread_id` models the
`get_tid()` result; `spurious = true` models a failing `__STREXB`.
Note the source checks only `mutex->owner != thread_id` — it never treats
the unowned sentinel `0xFF` as claimable. -/
def mutex_trylock (mutex : Mutex) (thread_id : Nat)
    (spurious : Bool) : Int × Mutex :=
  let tmp_state := mutex.state
  if mutex.owner ≠ thread_id then
    (E_BUSY, mutex)
  else if tmp_state = 0 then
    if spurious then
      (E_DEADLK, mutex)
    else
      (0, { mutex with state := 1, owner := thread_id })
  else
    (E_DEADLK, mutex)

/-- The `do { LDREXB; STREXB 0 } while` retry loop of `mutex_unlock`
(src/lib/mutex.c lines 195-200).  `oracle` lists the spurious failures of
successive `STREXB` attempts; the loop retries until a store succeeds, so
when the oracle is exhausted the store goes through and `state` becomes 0. -/
def mutex_unlock_loop (mutex : Mutex) : List Bool → Mutex
  | [] => { mutex with state := 0 }
  | b :: rest =>
    if b then mutex_unlock_loop mutex rest else { mutex with state := 0 }

/-- `mutex_unlock` (src/lib/mutex.c lines 178-205).  The owner-identity
check comes first; a caller that is not the recorded owner gets `E_BUSY`
even when the lock is unlocked (`owner = 0xFF`). -/
def mutex_unlock (mutex : Mutex) (thread_id : Nat)
    (oracle : List Bool) : Int × Mutex :=
  let tmp_state := mutex.state
  if mutex.owner ≠ thread_id then
    (E_BUSY, mutex)
  else if tmp_state = 0 then
    (0, mutex)
  else
    (0, { mutex_unlock_loop mutex oracle with owner := 0xFF })

/-- `futex_init` (src/lib/mutex.c lines 207-213). -/
def futex_init (_f : Mutex) : Int × Mutex :=
  (0, { owner := 0xFF, state := 0, flags := 0 })

/-- `futex_trylock` (src/lib/mutex.c lines 230-235): a single
`__futex_fast_lock` attempt with `max_depth = 0`.  It does not write
`owner`. -/
def futex_trylock (futex : Mutex) (thread_id : Nat)
    (spurious : Bool) : Int × Mutex :=
  __futex_fast_lock futex thread_id 0 spurious

/-- `futex_unlock` (src/lib/mutex.c lines 237-246): one
`__futex_fast_unlock` attempt; if it succeeded and the depth dropped to 0,
the owner reverts to the unowned sentinel. -/
def futex_unlock (futex : Mutex) (thread_id : Nat)
    (spurious : Bool) : Int × Mutex :=
  let r := __futex_fast_unlock futex thread_id spurious
  if r.1 = 0 ∧ r.2.state = 0 then
    (r.1, { r.2 with owner := 0xFF })
  else
    r

/-! ## Scheduler (`src/os/arch/arm/sched.c`) -/

/-- One memory region of a process definition
(`definition->mpu_regions[q]`, with byte-address fields `start` and `end`). -/
structure MemRegion where
  rStart : Nat
  rEnd : Nat
deriving DecidableEq, Repr

/-- One hardware-loadable MPU region descriptor
(`os_processes[pid].mpu[q]._MPU_RBAR` / `._MPU_RASR`). -/
structure MpuDesc where
  rbar : Nat
  rasr : Nat
deriving DecidableEq, Repr

/-- A process definition (`struct OS_process_definition_t`): the declared
memory regions, indexed `0 ≤ q < OS_TASK_MPU_REGIONS`. -/
structure ProcDef where
  mpu_regions : Nat → MemRegion

/-- One slot of the process table `os_processes`: the definition pointer
(null modelled as `none`) and the computed MPU region descriptors. -/
structure OSProcess where
  definition : Option ProcDef
  mpu : Nat → MpuDesc

/-- The process table, indexed by process id. -/
def ProcTable : Type := Nat → OSProcess

/-- Modelled from the spec: `mpu_configure_region` (declared in
`arch/mpu.h`, not among the provided sources) computes and validates a
hardware-loadable region descriptor from a region number, base address and
size; any invalid boundary makes it return a non-`E_OK` result.  `valid`
and `desc` abstract the validation and the computed descriptor. -/
structure MpuModel where
  valid : Nat → Nat → Nat → Bool
  desc : Nat → Nat → Nat → MpuDesc

/-- Modelled from the spec: a `mpu_configure_region` call, returning the
descriptor on success and `none` on an invalid boundary. -/
def mpu_configure_region (M : MpuModel) (q base size : Nat) : Option MpuDesc :=
  if M.valid q base size then some (M.desc q base size) else none

/-- Write the definition pointer of one process-table slot. -/
def setDef (t : ProcTable) (pid : Nat) (d : Option ProcDef) : ProcTable :=
  fun i => if i = pid then { t pid with definition := d } else t i

/-- Write one MPU descriptor of one process-table slot. -/
def setMpu (t : ProcTable) (pid q : Nat) (d : MpuDesc) : ProcTable :=
  fun i =>
    if i = pid then
      { t pid with mpu := Function.update (t pid).mpu q d }
    else t i

/-- The region byte size computed at src/os/arch/arm/sched.c line 89: the
pointer difference `end - start` on 32-bit addresses. -/
def region_size (r : MemRegion) : Nat :=
  (2 ^ 32 + r.rEnd - r.rStart) % 2 ^ 32

/-- Whether region `q` of a definition passes `mpu_configure_region`'s
validation. -/
def region_ok (M : MpuModel) (defn : ProcDef) (q : Nat) : Bool :=
  M.valid q (defn.mpu_regions q).rStart (region_size (defn.mpu_regions q))

/-- The descriptor `mpu_configure_region` computes for region `q` of a
definition. -/
def region_desc (M : MpuModel) (defn : ProcDef) (q : Nat) : MpuDesc :=
  M.desc q (defn.mpu_regions q).rStart (region_size (defn.mpu_regions q))

/-- The region-descriptor loop of `os_process_create`
(src/os/arch/arm/sched.c lines 87-96), unrolled as recursion on the number
`n` of regions still to process, starting at region index `q`.  Each
iteration calls `mpu_configure_region` on region `q` (its outcome is
`region_ok` / `region_desc`); on success the descriptor is written into
the slot's `mpu[q]` and the loop continues, and on the first invalid
region the loop aborts with `E_INVALID` and nulls the definition pointer,
leaving descriptors already written in place. -/
def create_regions (M : MpuModel) (defn : ProcDef) (pid : Nat) :
    Nat → Nat → ProcTable → Int × ProcTable
  | 0, _, t => (E_OK, t)
  | n + 1, q, t =>
    if region_ok M defn q then
      create_regions M defn pid n (q + 1)
        (setMpu t pid q (region_desc M defn q))
    else
      (E_INVALID, setDef t pid none)

/-- `os_process_create` (src/os/arch/arm/sched.c lines 74-98): rejects an
out-of-range id with `E_OUT_OF_RANGE`, an already-defined slot with
`E_INVALID`, then stores the definition pointer and computes the
`OS_TASK_MPU_REGIONS` region descriptors, aborting with `E_INVALID` (and a
nulled definition pointer) on the first invalid region. -/
def os_process_create (M : MpuModel) (t : ProcTable) (process_id : Nat)
    (defn : ProcDef) : Int × ProcTable :=
  if process_id ≥ OS_PROCESSES then
    (E_OUT_OF_RANGE, t)
  else if (t process_id).definition.isSome then
    (E_INVALID, t)
  else
    create_regions M defn process_id OS_TASK_MPU_REGIONS 0
      (setDef t process_id (some defn))

/-- `os_thread_populate_stack` (src/os/arch/arm/sched.c lines 53-63).
`os_stack_get` models the function of that name (the per-slot stack word
arenas; its definition is outside the provided sources) and `dispose` the
address of `os_thread_dispose`.  Writes, in source order: `data` at word
`stack_size - 8` (the saved R0), `dispose` at `stack_size - 3` (LR),
`entrypoint` at `stack_size - 2` (PC) and `0x01000000` at `stack_size - 1`
(xPSR, only the Thumb bit set).  Returns the updated arena of that slot and
the word index `stack_size - 16` the stack pointer is set to. -/
def os_thread_populate_stack (os_stack_get : Nat → Nat → Nat) (dispose : Nat)
    (stack_id stack_size entrypoint data : Nat) : (Nat → Nat) × Nat :=
  let stack := os_stack_get stack_id
  let s1 := Function.update stack (stack_size - 8) data
  let s2 := Function.update s1 (stack_size - 3) dispose
  let s3 := Function.update s2 (stack_size - 2) entrypoint
  let s4 := Function.update s3 (stack_size - 1) 0x01000000
  (s4, stack_size - 16)

/-! ## Cross-process call engine (`src/os/arch/arm/rpc.c`) -/

/-- A CPU exception frame on the process stack: the stacked
arguments/registers accessed through `get_exception_argument` /
`set_exception_argument`, plus the stacked PC and LR. -/
structure ExceptionFrame where
  args : Nat → Nat
  pc : Nat
  lr : Nat

/-- Kernel environment of the call engine.  Modelled from the spec: these
functions are declared in rpc.c (lines 18-21 and elsewhere) but defined
outside the provided sources.
`vtable_process` models `get_vtable_process` (resolves the exporting
process of a method table, `0xFF` when unresolvable); `service_vtable`
reads `service->vtable`; `vtable_method` indexes the method table;
`home` models `os_get_current_process` (the owning process of the current
thread); `rpc_return_addr` is the address of the `rpc_return` handler;
`rpc_stack_depth` is the configured per-thread call-stack capacity. -/
structure RpcEnv where
  vtable_process : Nat → Nat
  service_vtable : Nat → Nat
  vtable_method : Nat → Nat → Nat
  home : Nat
  rpc_return_addr : Nat
  rpc_stack_depth : Nat

/-- Mutable state touched by the call engine: the calling thread's bounded
call stack of process ids (top at the head), the currently loaded MPU
mapping (the single `mpu_load` target), the current exception frame (where
PSP points) and the frames stacked below it. -/
structure RpcState where
  pstack : List Nat
  mapping : Option Nat
  cur : ExceptionFrame
  saved : List ExceptionFrame

/-- Modelled from the spec: `rpc_stack_push` pushes a process id onto the
calling thread's bounded call stack; if the stack is already at capacity it
fails and performs no state change. -/
def rpc_stack_push (cap : Nat) (process_id : Nat) (s : List Nat) :
    Bool × List Nat :=
  if s.length ≥ cap then (false, s) else (true, process_id :: s)

/-- Modelled from the spec: `rpc_stack_pop` pops the top call-stack entry
and returns the depth remaining after the pop (as used at
src/os/arch/arm/rpc.c lines 92-95). -/
def rpc_stack_pop (s : List Nat) : Nat × List Nat :=
  (s.tail.length, s.tail)

/-- Modelled from the spec: `rpc_stack_top` reads the top entry of the call
stack; only called when the stack is non-empty. -/
def rpc_stack_top (s : List Nat) : Nat :=
  s.headD E_VTABLE_UNKNOWN

/-- The callee-side exception frame built by `os_rpc_call`
(src/os/arch/arm/rpc.c lines 53-66): arguments 0-3 of the caller's frame
shifted into positions 1-4, the service handle at position 0, the
call-integrity marker `0xAA55AA55` at position 5, PC = the resolved method,
LR = the `rpc_return` handler.  Untouched slots of the fresh frame are
modelled as 0. -/
def remote_frame (env : RpcEnv) (localf : ExceptionFrame) : ExceptionFrame :=
  let vtable := env.service_vtable (localf.args 4)
  let method := env.vtable_method vtable (localf.args 5)
  { args := fun i =>
      if i = 0 then localf.args 4
      else if 1 ≤ i ∧ i ≤ 4 then localf.args (i - 1)
      else if i = 5 then 0xAA55AA55
      else 0
    pc := method
    lr := env.rpc_return_addr }

/-- `os_rpc_call` (src/os/arch/arm/rpc.c lines 23-74).  Resolves the
exporting process from the service's method table; failure to resolve
returns `E_INVALID_ADDRESS` before any state change.  A failing push onto
the bounded call stack returns `E_IN_TOO_DEEP`, also before any state
change.  On success it loads the callee's mapping, stacks the callee frame
above the caller's and moves PSP to it; the syscall result is the caller's
`arg0`. -/
def os_rpc_call (env : RpcEnv) (st : RpcState) : Int × RpcState :=
  let localf := st.cur
  let vtable := env.service_vtable (localf.args 4)
  let process_id := env.vtable_process vtable
  if process_id = E_VTABLE_UNKNOWN then
    (E_INVALID_ADDRESS, st)
  else
    match rpc_stack_push env.rpc_stack_depth process_id st.pstack with
    | (false, _) => (E_IN_TOO_DEEP, st)
    | (true, pstack1) =>
      ((localf.args 0 : Int),
        { pstack := pstack1
          mapping := some process_id
          cur := remote_frame env localf
          saved := localf :: st.saved })

/-- `os_rpc_return` (src/os/arch/arm/rpc.c lines 78-140).  Pops the callee
frame and the call-stack entry; the process to map is the new top of the
call stack when it is still non-empty, and otherwise the thread's owning
(home) process.  If the resolved process is the unknown sentinel `0xFF`
the kernel halts (`ASSERT(0)`), modelled as `none`.  Otherwise it loads
that process's mapping, moves PSP back to the caller's frame and writes the
call's result (`arg0` of the callee frame) into that frame's R0 slot. -/
def os_rpc_return (env : RpcEnv) (st : RpcState) : Option (Int × RpcState) :=
  let remotef := st.cur
  let popped := rpc_stack_pop st.pstack
  let pstack_depth := popped.1
  let process_id :=
    if pstack_depth > 0 then rpc_stack_top popped.2 else env.home
  if process_id = E_VTABLE_UNKNOWN then
    none
  else
    let arg0 := remotef.args 0
    let localf :=
      match st.saved with
      | l :: _ => l
      | [] => remotef
    let saved1 :=
      match st.saved with
      | _ :: r => r
      | [] => []
    some ((arg0 : Int),
      { pstack := popped.2
        mapping := some process_id
        cur := { localf with args := Function.update localf.args 0 arg0 }
        saved := saved1 })

/-! ## Interleaved execution of `mutex_lock` / `mutex_unlock`

A small-step model of any number of threads running the binary lock's
`mutex_lock` (src/lib/mutex.c lines 120-148) and `mutex_unlock` (lines
178-205) concurrently on a single core.  Each shared-memory access of the
source is one atomic step; preemption may occur between any two steps.

Modelled from the spec: the `__LDREXB`/`__STREXB`/`__CLREX` intrinsics
(declared in `cmrx/intrinsics.h`, outside the provided sources) are the
hardware exclusive-access pair.  `LDREXB` takes an exclusive reservation,
`STREXB` succeeds only if the reservation is still held, and the
reservation is invalidated by any intervening context switch — hence a
reservation survives only across consecutive steps of the same thread. -/

/-- Where a thread stands inside `mutex_lock` / `mutex_unlock`.  The `Bool`
argument records whether the thread already held the lock when it entered
the routine (a holder re-calling `mutex_lock`, or the owner unlocking).
Lock phases: `lA` = about to `__LDREXB` (line 126); `lB tmp` = about to run
the owner test and the `tmp_state == 0` test (lines 127, 132); `lC` =
about to `__STREXB 1` (line 134); `lD` = about to record itself as owner
and return 0 (lines 138-139).  Unlock phases: `uA` = about to `__LDREXB`
(line 180); `uB tmp` = about to run the owner test and the `tmp_state == 0`
test (lines 182, 188); `uD` = about to `__LDREXB` inside the retry loop
(line 198); `uE` = about to `__STREXB 0` (line 199); `uF` = about to reset
the owner to `0xFF` and return 0 (lines 202-204). -/
inductive LockPhase where
  | idle : LockPhase
  | lA : Bool → LockPhase
  | lB : Nat → Bool → LockPhase
  | lC : Bool → LockPhase
  | lD : Bool → LockPhase
  | holding : LockPhase
  | uA : Bool → LockPhase
  | uB : Nat → Bool → LockPhase
  | uD : Bool → LockPhase
  | uE : Bool → LockPhase
  | uF : Bool → LockPhase
deriving DecidableEq, Repr

/-- Global state of the interleaved system: the shared lock fields
`state` and `owner`, the exclusive-access reservation (`mon = some t` when
thread `t` holds a live reservation) and each thread's phase.  Thread ids
are naturals other than the unowned sentinel `0xFF`. -/
structure SysState where
  state : Nat
  owner : Nat
  mon : Option Nat
  ts : Nat → LockPhase

/-- Effect of a context switch on the exclusive reservation: a step by
thread `t` keeps the reservation only if `t` itself holds it. -/
def steal (t : Nat) (m : Option Nat) : Option Nat :=
  if m = some t then m else none

/-- One atomic step of one thread, on the granularity of the
shared-memory accesses of `mutex_lock` / `mutex_unlock`. -/
inductive Step : SysState → SysState → Prop where
  | call_lock_idle (s : SysState) (t : Nat) (ht : t ≠ 0xFF)
      (hp : s.ts t = .idle) :
      Step s ⟨s.state, s.owner, steal t s.mon, Function.update s.ts t (.lA false)⟩
  | call_lock_holding (s : SysState) (t : Nat) (ht : t ≠ 0xFF)
      (hp : s.ts t = .holding) :
      Step s ⟨s.state, s.owner, steal t s.mon, Function.update s.ts t (.lA true)⟩
  | call_unlock_idle (s : SysState) (t : Nat) (ht : t ≠ 0xFF)
      (hp : s.ts t = .idle) :
      Step s ⟨s.state, s.owner, steal t s.mon, Function.update s.ts t (.uA false)⟩
  | call_unlock_holding (s : SysState) (t : Nat) (ht : t ≠ 0xFF)
      (hp : s.ts t = .holding) :
      Step s ⟨s.state, s.owner, steal t s.mon, Function.update s.ts t (.uA true)⟩
  | lock_ldrex (s : SysState) (t : Nat) (h : Bool) (ht : t ≠ 0xFF)
      (hp : s.ts t = .lA h) :
      Step s ⟨s.state, s.owner, some t, Function.update s.ts t (.lB s.state h)⟩
  | lock_retry (s : SysState) (t tmp : Nat) (h : Bool) (ht : t ≠ 0xFF)
      (hp : s.ts t = .lB tmp h)
      (hc : (s.owner ≠ t ∧ s.owner ≠ 0xFF) ∨ tmp ≠ 0) :
      Step s ⟨s.state, s.owner, steal t s.mon, Function.update s.ts t (.lA h)⟩
  | lock_check_ok (s : SysState) (t tmp : Nat) (h : Bool) (ht : t ≠ 0xFF)
      (hp : s.ts t = .lB tmp h) (ho : s.owner = t ∨ s.owner = 0xFF)
      (hz : tmp = 0) :
      Step s ⟨s.state, s.owner, steal t s.mon, Function.update s.ts t (.lC h)⟩
  | lock_strex_ok (s : SysState) (t : Nat) (h : Bool) (ht : t ≠ 0xFF)
      (hp : s.ts t = .lC h) (hm : s.mon = some t) :
      Step s ⟨1, s.owner, none, Function.update s.ts t (.lD h)⟩
  | lock_strex_fail (s : SysState) (t : Nat) (h : Bool) (ht : t ≠ 0xFF)
      (hp : s.ts t = .lC h) (hm : s.mon ≠ some t) :
      Step s ⟨s.state, s.owner, none, Function.update s.ts t (.lA h)⟩
  | lock_set_owner (s : SysState) (t : Nat) (h : Bool) (ht : t ≠ 0xFF)
      (hp : s.ts t = .lD h) :
      Step s ⟨s.state, t, steal t s.mon, Function.update s.ts t .holding⟩
  | unlock_ldrex (s : SysState) (t : Nat) (h : Bool) (ht : t ≠ 0xFF)
      (hp : s.ts t = .uA h) :
      Step s ⟨s.state, s.owner, some t, Function.update s.ts t (.uB s.state h)⟩
  | unlock_owner_fail (s : SysState) (t tmp : Nat) (h : Bool) (ht : t ≠ 0xFF)
      (hp : s.ts t = .uB tmp h) (ho : s.owner ≠ t) :
      Step s ⟨s.state, s.owner, none,
        Function.update s.ts t (if h then .holding else .idle)⟩
  | unlock_noop (s : SysState) (t tmp : Nat) (h : Bool) (ht : t ≠ 0xFF)
      (hp : s.ts t = .uB tmp h) (ho : s.owner = t) (hz : tmp = 0) :
      Step s ⟨s.state, s.owner, none,
        Function.update s.ts t (if h then .holding else .idle)⟩
  | unlock_to_loop (s : SysState) (t tmp : Nat) (h : Bool) (ht : t ≠ 0xFF)
      (hp : s.ts t = .uB tmp h) (ho : s.owner = t) (hz : tmp ≠ 0) :
      Step s ⟨s.state, s.owner, steal t s.mon, Function.update s.ts t (.uD h)⟩
  | unlock_loop_ldrex (s : SysState) (t : Nat) (h : Bool) (ht : t ≠ 0xFF)
      (hp : s.ts t = .uD h) :
      Step s ⟨s.state, s.owner, some t, Function.update s.ts t (.uE h)⟩
  | unlock_strex_ok (s : SysState) (t : Nat) (h : Bool) (ht : t ≠ 0xFF)
      (hp : s.ts t = .uE h) (hm : s.mon = some t) :
      Step s ⟨0, s.owner, none, Function.update s.ts t (.uF h)⟩
  | unlock_strex_fail (s : SysState) (t : Nat) (h : Bool) (ht : t ≠ 0xFF)
      (hp : s.ts t = .uE h) (hm : s.mon ≠ some t) :
      Step s ⟨s.state, s.owner, none, Function.update s.ts t (.uD h)⟩
  | unlock_set_owner (s : SysState) (t : Nat) (h : Bool) (ht : t ≠ 0xFF)
      (hp : s.ts t = .uF h) :
      Step s ⟨s.state, 0xFF, steal t s.mon, Function.update s.ts t .idle⟩

/-- The initial system state: lock unlocked and unowned (as left by
`mutex_init`), no live reservation, every thread outside the routines. -/
def init : SysState :=
  ⟨0, 0xFF, none, fun _ => .idle⟩

/-- States reachable by interleaving lock/unlock steps from the initial
state. -/
inductive Reach : SysState → Prop where
  | init : Reach init
  | step {s s' : SysState} : Reach s → Step s s' → Reach s'

/-- A thread in this phase has acquired the lock and not yet released it:
it is past the successful `__STREXB 1` of `mutex_lock` and has not finished
`mutex_unlock`'s release. -/
def acquired : LockPhase → Bool
  | .idle => false
  | .holding => true
  | .lA h => h
  | .lB _ h => h
  | .lC h => h
  | .lD _ => true
  | .uA h => h
  | .uB _ h => h
  | .uD h => h
  | .uE h => h
  | .uF h => h

/-- A thread in this phase has acquired the lock, has recorded itself in
`owner`, and has not yet stored 0 to `state`: all acquired phases except
`lD` (owner not yet written) and `uF` (state already cleared). -/
def heldStrong : LockPhase → Bool
  | .holding => true
  | .lA h => h
  | .lB _ h => h
  | .lC h => h
  | .uA h => h
  | .uB _ h => h
  | .uD h => h
  | .uE h => h
  | _ => false

/-- The inductive invariant of the interleaved system. -/
structure Inv (s : SysState) : Prop where
  j0 : s.ts 0xFF = .idle
  j1 : ∀ t₁ t₂, acquired (s.ts t₁) → acquired (s.ts t₂) → t₁ = t₂
  j2 : ∀ t, heldStrong (s.ts t) → s.state = 1 ∧ s.owner = t
  j2d : ∀ t h, s.ts t = .lD h → s.state = 1
  j2f : ∀ t, s.ts t = .uF true → s.state = 0 ∧ s.owner = t
  j3 : s.owner ≠ 0xFF → acquired (s.ts s.owner)
  j4b : ∀ t tmp h, s.mon = some t → s.ts t = .lB tmp h → s.state = tmp
  j4c : ∀ t h, s.mon = some t → s.ts t = .lC h →
    s.state = 0 ∧ (s.owner = 0xFF ∨ s.owner = t)
  j5d : ∀ t, s.ts t ≠ .uD false
  j5e : ∀ t, s.ts t ≠ .uE false
  j5f : ∀ t, s.ts t ≠ .uF false

/-! ## Concrete instances used to exercise the theorems -/

/-- A trivial MPU model accepting every region. -/
def mpuModelAll : MpuModel :=
  ⟨fun _ _ _ => true, fun _ _ _ => ⟨0, 0⟩⟩

/-- An MPU model accepting exactly regions 0 and 1, so that validation
fails at index 2. -/
def mpuModelUpTo2 : MpuModel :=
  ⟨fun q _ _ => decide (q < 2), fun q b sz => ⟨q + b, sz⟩⟩

/-- A concrete process definition. -/
def procDefW : ProcDef :=
  ⟨fun q => ⟨0x1000 * q, 0x1000 * q + 0x100⟩⟩

/-- An empty process table. -/
def tableEmpty : ProcTable :=
  fun _ => ⟨none, fun _ => ⟨0, 0⟩⟩

/-- A process table whose slot 0 is already defined. -/
def tableDef0 : ProcTable :=
  fun i => if i = 0 then ⟨some procDefW, fun _ => ⟨0, 0⟩⟩ else ⟨none, fun _ => ⟨0, 0⟩⟩

/-- An RPC environment whose method tables never resolve. -/
def rpcEnvUnknown : RpcEnv :=
  ⟨fun _ => E_VTABLE_UNKNOWN, fun _ => 0, fun _ _ => 0, 2, 0x100, 4⟩

/-- An RPC environment resolving every method table to process 1, with a
call-stack capacity of 0 so that every push fails. -/
def rpcEnvFull : RpcEnv :=
  ⟨fun _ => 1, fun _ => 0, fun _ _ => 0, 2, 0x100, 0⟩

/-- An RPC environment resolving every method table to the unknown
sentinel's home, `home = 0xFF`, to exercise the fatal path of
`os_rpc_return`. -/
def rpcEnvBadHome : RpcEnv :=
  ⟨fun _ => 1, fun _ => 0, fun _ _ => 0, E_VTABLE_UNKNOWN, 0x100, 4⟩

/-- A concrete RPC state with an empty call stack. -/
def rpcStateEmpty : RpcState :=
  ⟨[], none, ⟨fun _ => 0, 0, 0⟩, []⟩

/-- A concrete RPC state whose call stack holds processes [3, 5]. -/
def rpcStateTwo : RpcState :=
  ⟨[3, 5], some 3, ⟨fun _ => 0, 0, 0⟩, [⟨fun _ => 0, 0, 0⟩]⟩

/-- A concrete RPC state whose call stack holds the single process 4. -/
def rpcStateOne : RpcState :=
  ⟨[4], some 4, ⟨fun _ => 0, 0, 0⟩, [⟨fun _ => 0, 0, 0⟩]⟩

/-- Steps of a concrete execution: thread 0 runs `mutex_lock` to
completion from the initial state.  `w1` … `w5` are the successive
states. -/
def w1 : SysState :=
  ⟨init.state, init.owner, steal 0 init.mon, Function.update init.ts 0 (.lA false)⟩

/-- Second state of the concrete trace: after thread 0's `__LDREXB`. -/
def w2 : SysState :=
  ⟨w1.state, w1.owner, some 0, Function.update w1.ts 0 (.lB w1.state false)⟩

/-- Third state: after thread 0 passes the owner and `tmp_state` tests. -/
def w3 : SysState :=
  ⟨w2.state, w2.owner, steal 0 w2.mon, Function.update w2.ts 0 (.lC false)⟩

/-- Fourth state: after thread 0's successful `__STREXB 1`. -/
def w4 : SysState :=
  ⟨1, w3.owner, none, Function.update w3.ts 0 (.lD false)⟩

/-- Final state of the concrete trace: thread 0 holds the lock. -/
def w5 : SysState :=
  ⟨w4.state, 0, steal 0 w4.mon, Function.update w4.ts 0 .holding⟩

/-! ## Lock-primitive theorems -/

/-- `toSigned32` is the identity below `2^31`. -/
theorem toSigned32_of_lt {x : Nat} (h : x < 2 ^ 31) : toSigned32 x = x := by
  have h32 : x < 2 ^ 32 := lt_trans h (by norm_num)
  unfold toSigned32
  rw [Nat.mod_eq_of_lt h32, if_pos h]

/-- C1: the claim says `mutex_trylock` on an unlocked binary lock
(state = 0, owner = 0xFF) succeeds for any caller; the code instead rejects
any caller whose id differs from the recorded owner, and `0xFF` is never a
real thread id.  Evaluating the code at the failing input — a freshly
initialized mutex and thread 0 — yields `E_BUSY` and an unchanged lock,
where the claim requires 0 with state = 1 and owner = 0. -/
theorem mutex_trylock_unlocked_busy :
    mutex_trylock ⟨0, 0xFF, MUTEX_INITIALIZED⟩ 0 false =
      (E_BUSY, ⟨0, 0xFF, MUTEX_INITIALIZED⟩) := by
  decide

/-- C2 counterexample: `mutex_unlock` by thread 0 on an already-unlocked
binary lock (state = 0, owner = 0xFF) does not return success; it returns
`E_BUSY`, refuting the claimed successful no-op. -/
theorem mutex_unlock_unlocked_counterexample :
    (mutex_unlock ⟨0, 0xFF, MUTEX_INITIALIZED⟩ 0 []).1 = E_BUSY ∧
      E_BUSY ≠ 0 := by
  decide

/-- C2 (amended): for every thread identity `t` other than the unowned
sentinel `0xFF`, calling `mutex_unlock` on an already-unlocked binary lock
(state = 0, owner = 0xFF) returns `E_BUSY` — the owner-identity check
rejects it before the unlocked-state no-op branch is reached — and leaves
the lock's state, owner and flags unchanged. -/
theorem mutex_unlock_unlocked_rejected (m : Mutex) (t : Nat)
    (oracle : List Bool) (ht : t ≠ 0xFF) (_hs : m.state = 0)
    (ho : m.owner = 0xFF) :
    mutex_unlock m t oracle = (E_BUSY, m) := by
  unfold mutex_unlock
  rw [ho]
  simp [Ne.symm ht]

/-- Closed instance of the C2 theorem at thread 0 and a freshly
initialized mutex. -/
theorem mutex_unlock_unlocked_rejected_witness :
    mutex_unlock ⟨0, 0xFF, 1⟩ 0 [] = (E_BUSY, ⟨0, 0xFF, 1⟩) :=
  mutex_unlock_unlocked_rejected ⟨0, 0xFF, 1⟩ 0 [] (by decide) rfl rfl

/-- C3 counterexample: with maximum-depth parameter `m = 0`, a claim on an
unowned futex at depth 0 succeeds, although the claimed success condition
`depth < m` fails (`0 < 0` is false): the code admits depth ≤ m, not
depth < m. -/
theorem futex_fast_lock_depth_counterexample :
    (__futex_fast_lock ⟨0, 0xFF, 0⟩ 0 0 false).1 = 0 ∧ ¬((0 : Nat) < 0) := by
  decide

/-- C3 (amended): for the depth-limited claim primitive
`__futex_fast_lock` with maximum-depth parameter `m`, a claim on an unowned
lock or by the owner succeeds exactly when the current depth is less than
or equal to `m` (so the owner may claim up to `m + 1` times in a row and
the `(m + 2)`-th attempt fails), assuming no spurious store-exclusive
failure; on success the stored depth is the incremented byte.  The bounds
`state < 256` (a byte field) and `m < 2^31` (the comparison is the signed
`BGT`) delimit the hardware representation. -/
theorem futex_fast_lock_depth_le (f : Mutex) (t m : Nat) (hs : f.state < 256)
    (hm : m < 2 ^ 31) (ho : f.owner = 0xFF ∨ f.owner = t) :
    ((__futex_fast_lock f t m false).1 = 0 ↔ f.state ≤ m) ∧
    (f.state ≤ m →
      (__futex_fast_lock f t m false).2.state = (f.state + 1) % 256) ∧
    (m < f.state → __futex_fast_lock f t m false = (1, f)) := by
  have hs31 : f.state < 2 ^ 31 := lt_trans hs (by norm_num)
  have hcond : ¬(f.owner ≠ 0xFF ∧ f.owner ≠ t) := by
    rcases ho with h | h <;> simp [h]
  unfold __futex_fast_lock
  dsimp only
  rw [toSigned32_of_lt hs31, toSigned32_of_lt hm]
  by_cases hle : f.state ≤ m
  · have hngt : ¬((f.state : Int) > (m : Int)) := by
      exact_mod_cast not_lt.mpr hle
    simp [hcond, hngt, hle]
  · have hgt : ((f.state : Int) > (m : Int)) := by
      exact_mod_cast not_le.mp hle
    simp [hcond, hgt, hle, not_le.mp hle]

/-- Closed instance of the C3 theorem: owner 7 at depth 1 with `m = 1`
claims successfully. -/
theorem futex_fast_lock_depth_le_witness :
    (__futex_fast_lock ⟨1, 7, 0⟩ 7 1 false).1 = 0 :=
  (futex_fast_lock_depth_le ⟨1, 7, 0⟩ 7 1 (by decide) (by decide)
    (Or.inr rfl)).1.mpr (by decide)

/-- C10: for every thread identity and any spurious-failure behaviour,
`futex_unlock` on a recursive lock whose depth (`state`) is 0 fails with
the nonzero result 1 and leaves the lock's state and owner unchanged: the
`CBZ` in `__futex_fast_unlock` bails out before any store, and
`futex_unlock` resets the owner only after a successful unlock. -/
theorem futex_unlock_at_zero_fails (f : Mutex) (t : Nat) (sp : Bool)
    (hs : f.state = 0) : futex_unlock f t sp = (1, f) := by
  unfold futex_unlock __futex_fast_unlock
  simp [hs]

/-- Closed instance of the C10 theorem at depth 0. -/
theorem futex_unlock_at_zero_fails_witness :
    futex_unlock ⟨0, 3, 0⟩ 5 false = (1, ⟨0, 3, 0⟩) :=
  futex_unlock_at_zero_fails ⟨0, 3, 0⟩ 5 false rfl

/-! ## Scheduler theorems -/

/-- C7: `os_process_create` returns `E_OUT_OF_RANGE` for every process id
at or above the table capacity `OS_PROCESSES`, and `E_INVALID` (the
duplicate error, per the function's own doc comment) for every in-range id
whose slot already has a non-null definition; in both cases the process
table is returned unchanged. -/
theorem os_process_create_range_duplicate (M : MpuModel) (t : ProcTable)
    (pid : Nat) (defn : ProcDef) :
    (OS_PROCESSES ≤ pid →
      os_process_create M t pid defn = (E_OUT_OF_RANGE, t)) ∧
    (pid < OS_PROCESSES → (t pid).definition.isSome →
      os_process_create M t pid defn = (E_INVALID, t)) := by
  constructor
  · intro h
    unfold os_process_create
    rw [if_pos h]
  · intro h1 h2
    unfold os_process_create
    rw [if_neg (not_le.mpr h1), if_pos h2]

/-- Closed instance of the C7 theorem: id 9 is out of range and id 0 is
already defined in `tableDef0`. -/
theorem os_process_create_range_duplicate_witness :
    os_process_create mpuModelAll tableDef0 9 procDefW =
      (E_OUT_OF_RANGE, tableDef0) ∧
    os_process_create mpuModelAll tableDef0 0 procDefW =
      (E_INVALID, tableDef0) :=
  ⟨(os_process_create_range_duplicate mpuModelAll tableDef0 9 procDefW).1
      (by decide),
   (os_process_create_range_duplicate mpuModelAll tableDef0 0 procDefW).2
      (by decide) (by decide)⟩

/-- C8: `os_thread_populate_stack` lays the new thread's stack out so that
the first-argument (R0) slot at word `stack_size - 8` holds `data`, the
link-register slot at `stack_size - 3` holds the `os_thread_dispose`
continuation, the program-counter slot at `stack_size - 2` holds
`entrypoint`, and the status-register slot at `stack_size - 1` holds
`0x01000000` — the minimal xPSR for unprivileged thumb execution (only the
Thumb bit set); the returned stack pointer is word `stack_size - 16`.
On first resumption the hardware exception return therefore behaves as if
`entrypoint(data)` had just been called with return address
`os_thread_dispose`.  `stack_size ≥ 8` keeps the four slots inside the
arena and distinct. -/
theorem os_thread_populate_stack_layout (sg : Nat → Nat → Nat)
    (dispose stack_id stack_size entrypoint data : Nat)
    (h : 8 ≤ stack_size) :
    ((os_thread_populate_stack sg dispose stack_id stack_size entrypoint
        data).1 (stack_size - 8) = data) ∧
    ((os_thread_populate_stack sg dispose stack_id stack_size entrypoint
        data).1 (stack_size - 3) = dispose) ∧
    ((os_thread_populate_stack sg dispose stack_id stack_size entrypoint
        data).1 (stack_size - 2) = entrypoint) ∧
    ((os_thread_populate_stack sg dispose stack_id stack_size entrypoint
        data).1 (stack_size - 1) = 0x01000000) ∧
    ((os_thread_populate_stack sg dispose stack_id stack_size entrypoint
        data).2 = stack_size - 16) := by
  have h81 : stack_size - 8 ≠ stack_size - 1 := by omega
  have h82 : stack_size - 8 ≠ stack_size - 2 := by omega
  have h83 : stack_size - 8 ≠ stack_size - 3 := by omega
  have h31 : stack_size - 3 ≠ stack_size - 1 := by omega
  have h32 : stack_size - 3 ≠ stack_size - 2 := by omega
  have h21 : stack_size - 2 ≠ stack_size - 1 := by omega
  unfold os_thread_populate_stack
  dsimp only
  refine ⟨?_, ?_, ?_, ?_, rfl⟩
  · rw [Function.update_noteq h81, Function.update_noteq h82,
      Function.update_noteq h83, Function.update_same]
  · rw [Function.update_noteq h31, Function.update_noteq h32,
      Function.update_same]
  · rw [Function.update_noteq h21, Function.update_same]
  · rw [Function.update_same]

/-- Closed instance of the C8 theorem: the spec's scenario of a
1024-word stack, entrypoint `0x08000123` and data `0xCAFEBABE`. -/
theorem os_thread_populate_stack_layout_witness :
    ((os_thread_populate_stack (fun _ _ => 0) 0x08000001 0 1024 0x08000123
        0xCAFEBABE).1 (1024 - 8) = 0xCAFEBABE) ∧
    ((os_thread_populate_stack (fun _ _ => 0) 0x08000001 0 1024 0x08000123
        0xCAFEBABE).1 (1024 - 3) = 0x08000001) ∧
    ((os_thread_populate_stack (fun _ _ => 0) 0x08000001 0 1024 0x08000123
        0xCAFEBABE).1 (1024 - 2) = 0x08000123) ∧
    ((os_thread_populate_stack (fun _ _ => 0) 0x08000001 0 1024 0x08000123
        0xCAFEBABE).1 (1024 - 1) = 0x01000000) ∧
    ((os_thread_populate_stack (fun _ _ => 0) 0x08000001 0 1024 0x08000123
        0xCAFEBABE).2 = 1024 - 16) :=
  os_thread_populate_stack_layout (fun _ _ => 0) 0x08000001 0 1024
    0x08000123 0xCAFEBABE (by decide)

/-- Unfolding of one successful iteration of the region loop. -/
theorem create_regions_succ_ok (M : MpuModel) (defn : ProcDef)
    (pid n q : Nat) (t : ProcTable) (h : region_ok M defn q = true) :
    create_regions M defn pid (n + 1) q t =
      create_regions M defn pid n (q + 1)
        (setMpu t pid q (region_desc M defn q)) := by
  simp only [create_regions, h, if_true]

/-- Unfolding of a failing iteration of the region loop. -/
theorem create_regions_succ_bad (M : MpuModel) (defn : ProcDef)
    (pid n q : Nat) (t : ProcTable) (h : region_ok M defn q = false) :
    create_regions M defn pid (n + 1) q t = (E_INVALID, setDef t pid none) := by
  simp only [create_regions, h]
  rfl

/-- Behaviour of the region loop when validation first fails at relative
index `k`: the loop returns `E_INVALID`, nulls the definition pointer of
`pid`'s slot, leaves every other slot alone, and leaves the descriptors it
wrote for the earlier regions in place. -/
theorem create_regions_fail (M : MpuModel) (defn : ProcDef) (pid : Nat) :
    ∀ (n k q : Nat) (t : ProcTable), k < n →
    (∀ j, j < k → region_ok M defn (q + j) = true) →
    region_ok M defn (q + k) = false →
    (create_regions M defn pid n q t).1 = E_INVALID ∧
    ((create_regions M defn pid n q t).2 pid).definition = none ∧
    (∀ i, i ≠ pid → (create_regions M defn pid n q t).2 i = t i) ∧
    (∀ j, ((create_regions M defn pid n q t).2 pid).mpu j =
      if q ≤ j ∧ j < q + k then region_desc M defn j else (t pid).mpu j) := by
  intro n
  induction n with
  | zero =>
    intro k q t hk
    exact absurd hk (Nat.not_lt_zero k)
  | succ n ih =>
    intro k q t hk hok hbad
    cases k with
    | zero =>
      rw [Nat.add_zero] at hbad
      rw [create_regions_succ_bad M defn pid n q t hbad]
      refine ⟨rfl, by simp [setDef], ?_, ?_⟩
      · intro i hi
        simp [setDef, hi]
      · intro j
        rw [if_neg (by omega)]
        simp [setDef]
    | succ k' =>
      have hq : region_ok M defn q = true := by
        have := hok 0 (Nat.succ_pos k')
        simpa using this
      rw [create_regions_succ_ok M defn pid n q t hq]
      have ih' := ih k' (q + 1) (setMpu t pid q (region_desc M defn q))
        (by omega)
        (fun j hj => by
          have := hok (j + 1) (by omega)
          rw [show q + 1 + j = q + (j + 1) by omega]
          exact this)
        (by
          rw [show q + 1 + k' = q + (k' + 1) by omega]
          exact hbad)
      obtain ⟨ih1, ih2, ih3, ih4⟩ := ih'
      refine ⟨ih1, ih2, ?_, ?_⟩
      · intro i hi
        rw [ih3 i hi]
        simp [setMpu, hi]
      · intro j
        rw [ih4 j]
        by_cases hj : q + 1 ≤ j ∧ j < q + 1 + k'
        · rw [if_pos hj, if_pos (by omega : q ≤ j ∧ j < q + (k' + 1))]
        · rw [if_neg hj]
          have hset : (setMpu t pid q (region_desc M defn q) pid).mpu j =
              if j = q then region_desc M defn q else (t pid).mpu j := by
            simp [setMpu, Function.update_apply]
          rw [hset]
          by_cases hjq : j = q
          · subst hjq
            rw [if_pos rfl, if_pos (by omega)]
          · rw [if_neg hjq, if_neg (by omega)]

/-- C6: if `os_process_create` on a previously undefined in-range process
id hits a region that fails validation at index `k` (all earlier regions
valid), it returns `E_INVALID` and resets the slot's definition pointer to
null, while the descriptors already computed and written for indices
`0 … k-1` remain in the slot (no rollback); descriptors at and after `k`
and all other slots are untouched. -/
theorem os_process_create_partial_write (M : MpuModel) (t : ProcTable)
    (pid k : Nat) (defn : ProcDef) (hpid : pid < OS_PROCESSES)
    (hdef : (t pid).definition = none) (hk : k < OS_TASK_MPU_REGIONS)
    (hok : ∀ j, j < k → region_ok M defn j = true)
    (hbad : region_ok M defn k = false) :
    (os_process_create M t pid defn).1 = E_INVALID ∧
    ((os_process_create M t pid defn).2 pid).definition = none ∧
    (∀ j, j < k → ((os_process_create M t pid defn).2 pid).mpu j =
      region_desc M defn j) ∧
    (∀ j, k ≤ j → ((os_process_create M t pid defn).2 pid).mpu j =
      (t pid).mpu j) ∧
    (∀ i, i ≠ pid → (os_process_create M t pid defn).2 i = t i) := by
  unfold os_process_create
  rw [if_neg (not_le.mpr hpid), if_neg (by simp [hdef])]
  obtain ⟨h1, h2, h3, h4⟩ := create_regions_fail M defn pid
    OS_TASK_MPU_REGIONS k 0 (setDef t pid (some defn)) hk
    (by simpa using hok) (by simpa using hbad)
  refine ⟨h1, h2, ?_, ?_, ?_⟩
  · intro j hj
    rw [h4 j, if_pos ⟨Nat.zero_le j, by omega⟩]
  · intro j hj
    rw [h4 j, if_neg (by omega)]
    simp [setDef]
  · intro i hi
    rw [h3 i hi]
    simp [setDef, hi]

/-- Closed instance of the C6 theorem: with an MPU model that rejects
region index 2, creation of process 3 fails with `E_INVALID`, nulls the
definition pointer, keeps the descriptor written for region 0 and leaves
region 2's slot and other processes untouched. -/
theorem os_process_create_partial_write_witness :
    (os_process_create mpuModelUpTo2 tableEmpty 3 procDefW).1 = E_INVALID ∧
    ((os_process_create mpuModelUpTo2 tableEmpty 3 procDefW).2 3).definition
      = none ∧
    ((os_process_create mpuModelUpTo2 tableEmpty 3 procDefW).2 3).mpu 0 =
      region_desc mpuModelUpTo2 procDefW 0 ∧
    ((os_process_create mpuModelUpTo2 tableEmpty 3 procDefW).2 3).mpu 2 =
      (tableEmpty 3).mpu 2 ∧
    (os_process_create mpuModelUpTo2 tableEmpty 3 procDefW).2 0 =
      tableEmpty 0 := by
  obtain ⟨h1, h2, h3, h4, h5⟩ := os_process_create_partial_write
    mpuModelUpTo2 tableEmpty 3 2 procDefW (by decide) rfl (by decide)
    (by decide) (by decide)
  exact ⟨h1, h2, h3 0 (by decide), h4 2 (by decide), h5 0 (by decide)⟩

/-! ## Call-engine theorems -/

/-- C4: `os_rpc_call` with an unresolvable exporting process returns
`E_INVALID_ADDRESS`, and with a resolvable process but a call stack at
capacity returns `E_IN_TOO_DEEP`; in both failure cases the whole state —
call stack, active mapping and activation records — is returned
unchanged. -/
theorem os_rpc_call_error_paths (env : RpcEnv) (st : RpcState) :
    (env.vtable_process (env.service_vtable (st.cur.args 4)) =
        E_VTABLE_UNKNOWN →
      os_rpc_call env st = (E_INVALID_ADDRESS, st)) ∧
    (env.vtable_process (env.service_vtable (st.cur.args 4)) ≠
        E_VTABLE_UNKNOWN →
      env.rpc_stack_depth ≤ st.pstack.length →
      os_rpc_call env st = (E_IN_TOO_DEEP, st)) := by
  constructor
  · intro h
    unfold os_rpc_call
    dsimp only
    rw [if_pos h]
  · intro h1 h2
    unfold os_rpc_call rpc_stack_push
    dsimp only
    rw [if_neg h1, if_pos h2]

/-- Closed instance of the C4 theorem: an unresolvable method table, and a
zero-capacity call stack. -/
theorem os_rpc_call_error_paths_witness :
    os_rpc_call rpcEnvUnknown rpcStateEmpty =
      (E_INVALID_ADDRESS, rpcStateEmpty) ∧
    os_rpc_call rpcEnvFull rpcStateEmpty = (E_IN_TOO_DEEP, rpcStateEmpty) :=
  ⟨(os_rpc_call_error_paths rpcEnvUnknown rpcStateEmpty).1 rfl,
   (os_rpc_call_error_paths rpcEnvFull rpcStateEmpty).2 (by decide)
      (by decide)⟩

/-- C5: after `os_rpc_return` pops the call stack, the process whose
mapping it loads is the new top of the call stack when the stack is still
non-empty, and the thread's owning (home) process otherwise; if the
resolved process is the unknown sentinel `0xFF`, the function halts
(`ASSERT(0)`, modelled as `none`) instead of returning an error code. -/
theorem os_rpc_return_mapping_resolution (env : RpcEnv) (st : RpcState) :
    (∀ p ps, st.pstack.tail = p :: ps → p ≠ E_VTABLE_UNKNOWN →
      (os_rpc_return env st).map (fun r => r.2.mapping) = some (some p)) ∧
    (st.pstack.tail = [] → env.home ≠ E_VTABLE_UNKNOWN →
      (os_rpc_return env st).map (fun r => r.2.mapping) =
        some (some env.home)) ∧
    ((if 0 < st.pstack.tail.length then rpc_stack_top st.pstack.tail
        else env.home) = E_VTABLE_UNKNOWN →
      os_rpc_return env st = none) := by
  refine ⟨?_, ?_, ?_⟩
  · intro p ps htail hp
    unfold os_rpc_return rpc_stack_pop rpc_stack_top
    dsimp only
    rw [htail]
    simp [hp]
  · intro htail hh
    unfold os_rpc_return rpc_stack_pop
    dsimp only
    rw [htail]
    simp [hh]
  · intro hres
    unfold os_rpc_return rpc_stack_pop
    dsimp only
    rw [hres, if_pos rfl]

/-- Closed instance of the C5 theorem: a two-deep call stack maps the new
top (5), a one-deep call stack maps the home process (2), and an
unresolvable home halts. -/
theorem os_rpc_return_mapping_resolution_witness :
    ((os_rpc_return rpcEnvUnknown rpcStateTwo).map (fun r => r.2.mapping) =
      some (some 5)) ∧
    ((os_rpc_return rpcEnvUnknown rpcStateOne).map (fun r => r.2.mapping) =
      some (some 2)) ∧
    os_rpc_return rpcEnvBadHome rpcStateOne = none :=
  ⟨(os_rpc_return_mapping_resolution rpcEnvUnknown rpcStateTwo).1 5 []
      rfl (by decide),
   (os_rpc_return_mapping_resolution rpcEnvUnknown rpcStateOne).2.1
      rfl (by decide),
   (os_rpc_return_mapping_resolution rpcEnvBadHome rpcStateOne).2.2 rfl⟩

/-! ## Mutual-exclusion proof for the interleaved lock model -/

/-- A phase counted by `heldStrong` is in particular an acquired phase. -/
theorem acquired_of_heldStrong {p : LockPhase} (h : heldStrong p = true) :
    acquired p = true := by
  cases p <;> simp_all [heldStrong, acquired]

/-- Classification of acquired phases. -/
theorem acquired_cases {p : LockPhase} (h : acquired p = true) :
    heldStrong p = true ∨ (∃ b, p = .lD b) ∨ p = .uF true := by
  cases p <;> simp_all [acquired, heldStrong]

/-- A reservation that survives `steal t` belongs to `t`. -/
theorem steal_eq_some {t t' : Nat} {m : Option Nat}
    (h : steal t m = some t') : t' = t ∧ m = some t := by
  by_cases hm : m = some t
  · rw [steal, if_pos hm, hm] at h
    exact ⟨(Option.some.inj h).symm, hm⟩
  · rw [steal, if_neg hm] at h
    cases h

/-- The pairwise-uniqueness field of the invariant survives a phase change
that does not newly acquire the lock. -/
theorem j1_preserve {s : SysState} {t : Nat} {p : LockPhase}
    (j1 : ∀ t₁ t₂, acquired (s.ts t₁) → acquired (s.ts t₂) → t₁ = t₂)
    (himp : acquired p = true → acquired (s.ts t) = true) :
    ∀ t₁ t₂, acquired (Function.update s.ts t p t₁) →
      acquired (Function.update s.ts t p t₂) → t₁ = t₂ := by
  intro t₁ t₂ h₁ h₂
  by_cases e₁ : t₁ = t <;> by_cases e₂ : t₂ = t
  · rw [e₁, e₂]
  · rw [e₁] at h₁ ⊢
    rw [Function.update_same] at h₁
    rw [Function.update_noteq e₂] at h₂
    exact j1 t t₂ (himp h₁) h₂
  · rw [e₂] at h₂ ⊢
    rw [Function.update_same] at h₂
    rw [Function.update_noteq e₁] at h₁
    exact j1 t₁ t h₁ (himp h₂)
  · rw [Function.update_noteq e₁] at h₁
    rw [Function.update_noteq e₂] at h₂
    exact j1 t₁ t₂ h₁ h₂

/-- The invariant holds in the initial state. -/
theorem inv_init : Inv init := by
  refine ⟨rfl, ?_, ?_, ?_, ?_, ?_, ?_, ?_, ?_, ?_, ?_⟩ <;>
    simp [init, acquired, heldStrong]

/-- Invariant preservation for every step that leaves `state` and `owner`
unchanged and moves one thread `t` to a phase `p`.  The hypotheses isolate
what the specific step must supply: `hacq` — the new phase is acquired only
if the old one was; `hheld` — when the new phase is counted by
`heldStrong`, the lock is held by `t`; the new phase is not `lD`, not
`uF true`, and not a held-false unlock-loop phase; `hj3t` — if `t` is the
recorded owner, the new phase is acquired; `hm` — the new reservation can
only belong to `t`; `hj4b`/`hj4c` — the reservation facts for the new
phase when the reservation is `t`'s. -/
theorem inv_simple {s : SysState} {t : Nat} {p : LockPhase}
    {m' : Option Nat} (ht : t ≠ 0xFF) (hI : Inv s)
    (hacq : acquired p = true → acquired (s.ts t) = true)
    (hheld : heldStrong p = true → s.state = 1 ∧ s.owner = t)
    (hnotlD : ∀ b, p ≠ .lD b)
    (hnotuF : p ≠ .uF true)
    (hj3t : s.owner = t → s.owner ≠ 0xFF → acquired p = true)
    (hm : ∀ t', m' = some t' → t' = t)
    (hj4b : ∀ tmp h, m' = some t → p = .lB tmp h → s.state = tmp)
    (hj4c : ∀ h, m' = some t → p = .lC h →
      s.state = 0 ∧ (s.owner = 0xFF ∨ s.owner = t))
    (hd : p ≠ .uD false) (he : p ≠ .uE false) (hf : p ≠ .uF false) :
    Inv ⟨s.state, s.owner, m', Function.update s.ts t p⟩ := by
  obtain ⟨j0, j1, j2, j2d, j2f, j3, j4b, j4c, j5d, j5e, j5f⟩ := hI
  refine ⟨?_, ?_, ?_, ?_, ?_, ?_, ?_, ?_, ?_, ?_, ?_⟩ <;> dsimp only
  · rw [Function.update_noteq (Ne.symm ht)]
    exact j0
  · exact j1_preserve j1 hacq
  · intro t' hq
    by_cases e : t' = t
    · rw [e, Function.update_same] at hq
      rw [e]
      exact hheld hq
    · rw [Function.update_noteq e] at hq
      exact j2 t' hq
  · intro t' h' he'
    by_cases e : t' = t
    · rw [e, Function.update_same] at he'
      exact absurd he' (hnotlD h')
    · rw [Function.update_noteq e] at he'
      exact j2d t' h' he'
  · intro t' he'
    by_cases e : t' = t
    · rw [e, Function.update_same] at he'
      exact absurd he' hnotuF
    · rw [Function.update_noteq e] at he'
      exact j2f t' he'
  · intro hne
    by_cases e : s.owner = t
    · rw [e, Function.update_same]
      exact hj3t e (e ▸ hne)
    · rw [Function.update_noteq e]
      exact j3 hne
  · intro t' tmp h' hm' he'
    have et := hm t' hm'
    rw [et] at he' hm'
    rw [Function.update_same] at he'
    exact hj4b tmp h' hm' he'
  · intro t' h' hm' he'
    have et := hm t' hm'
    rw [et] at he' hm' ⊢
    rw [Function.update_same] at he'
    exact hj4c h' hm' he'
  · intro t'
    by_cases e : t' = t
    · rw [e, Function.update_same]
      exact hd
    · rw [Function.update_noteq e]
      exact j5d t'
  · intro t'
    by_cases e : t' = t
    · rw [e, Function.update_same]
      exact he
    · rw [Function.update_noteq e]
      exact j5e t'
  · intro t'
    by_cases e : t' = t
    · rw [e, Function.update_same]
      exact hf
    · rw [Function.update_noteq e]
      exact j5f t'

/-- Invariant preservation: an idle thread entering `mutex_lock`. -/
theorem inv_call_lock_idle {s : SysState} {t : Nat} (ht : t ≠ 0xFF)
    (hp : s.ts t = .idle) (hI : Inv s) :
    Inv ⟨s.state, s.owner, steal t s.mon,
      Function.update s.ts t (.lA false)⟩ :=
  inv_simple ht hI
    (by intro hq; simp [acquired] at hq)
    (by intro hq; simp [heldStrong] at hq)
    (by intro b; simp)
    (by simp)
    (by intro e hne; have hx := hI.j3 hne; rw [e, hp] at hx
        simp [acquired] at hx)
    (fun t' hh => (steal_eq_some hh).1)
    (by intro tmp h hm' hpe; simp at hpe)
    (by intro h hm' hpe; simp at hpe)
    (by simp) (by simp) (by simp)

/-- Invariant preservation: the holder re-entering `mutex_lock`. -/
theorem inv_call_lock_holding {s : SysState} {t : Nat} (ht : t ≠ 0xFF)
    (hp : s.ts t = .holding) (hI : Inv s) :
    Inv ⟨s.state, s.owner, steal t s.mon,
      Function.update s.ts t (.lA true)⟩ :=
  inv_simple ht hI
    (by intro _; rw [hp]; rfl)
    (by intro _; exact hI.j2 t (by rw [hp]; rfl))
    (by intro b; simp)
    (by simp)
    (by intro _ _; rfl)
    (fun t' hh => (steal_eq_some hh).1)
    (by intro tmp h hm' hpe; simp at hpe)
    (by intro h hm' hpe; simp at hpe)
    (by simp) (by simp) (by simp)

/-- Invariant preservation: an idle thread entering `mutex_unlock`. -/
theorem inv_call_unlock_idle {s : SysState} {t : Nat} (ht : t ≠ 0xFF)
    (hp : s.ts t = .idle) (hI : Inv s) :
    Inv ⟨s.state, s.owner, steal t s.mon,
      Function.update s.ts t (.uA false)⟩ :=
  inv_simple ht hI
    (by intro hq; simp [acquired] at hq)
    (by intro hq; simp [heldStrong] at hq)
    (by intro b; simp)
    (by simp)
    (by intro e hne; have hx := hI.j3 hne; rw [e, hp] at hx
        simp [acquired] at hx)
    (fun t' hh => (steal_eq_some hh).1)
    (by intro tmp h hm' hpe; simp at hpe)
    (by intro h hm' hpe; simp at hpe)
    (by simp) (by simp) (by simp)

/-- Invariant preservation: the holder entering `mutex_unlock`. -/
theorem inv_call_unlock_holding {s : SysState} {t : Nat} (ht : t ≠ 0xFF)
    (hp : s.ts t = .holding) (hI : Inv s) :
    Inv ⟨s.state, s.owner, steal t s.mon,
      Function.update s.ts t (.uA true)⟩ :=
  inv_simple ht hI
    (by intro _; rw [hp]; rfl)
    (by intro _; exact hI.j2 t (by rw [hp]; rfl))
    (by intro b; simp)
    (by simp)
    (by intro _ _; rfl)
    (fun t' hh => (steal_eq_some hh).1)
    (by intro tmp h hm' hpe; simp at hpe)
    (by intro h hm' hpe; simp at hpe)
    (by simp) (by simp) (by simp)

/-- Invariant preservation: `mutex_lock`'s `__LDREXB` (line 126). -/
theorem inv_lock_ldrex {s : SysState} {t : Nat} {h : Bool} (ht : t ≠ 0xFF)
    (hp : s.ts t = .lA h) (hI : Inv s) :
    Inv ⟨s.state, s.owner, some t,
      Function.update s.ts t (.lB s.state h)⟩ :=
  inv_simple ht hI
    (by intro hq; rw [hp]; simpa [acquired] using hq)
    (by intro hq
        exact hI.j2 t (by rw [hp]; simpa [heldStrong, acquired] using hq))
    (by intro b; simp)
    (by simp)
    (by intro e hne; have hx := hI.j3 hne; rw [e, hp] at hx
        simpa [acquired] using hx)
    (fun t' hh => (Option.some.inj hh).symm)
    (by intro tmp h' hm' hpe; cases hpe; rfl)
    (by intro h' hm' hpe; simp at hpe)
    (by simp) (by simp) (by simp)

/-- Invariant preservation: `mutex_lock` looping back to a fresh attempt
(owner check failed, or `tmp_state` nonzero; lines 127-131, 146). -/
theorem inv_lock_retry {s : SysState} {t tmp : Nat} {h : Bool}
    (ht : t ≠ 0xFF) (hp : s.ts t = .lB tmp h) (hI : Inv s) :
    Inv ⟨s.state, s.owner, steal t s.mon,
      Function.update s.ts t (.lA h)⟩ :=
  inv_simple ht hI
    (by intro hq; rw [hp]; simpa [acquired] using hq)
    (by intro hq
        exact hI.j2 t (by rw [hp]; simpa [heldStrong, acquired] using hq))
    (by intro b; simp)
    (by simp)
    (by intro e hne; have hx := hI.j3 hne; rw [e, hp] at hx
        simpa [acquired] using hx)
    (fun t' hh => (steal_eq_some hh).1)
    (by intro tmp' h' hm' hpe; simp at hpe)
    (by intro h' hm' hpe; simp at hpe)
    (by simp) (by simp) (by simp)

/-- Invariant preservation: `mutex_lock` passing the owner test and the
`tmp_state == 0` test (lines 127, 132), heading for the `__STREXB`. -/
theorem inv_lock_check_ok {s : SysState} {t tmp : Nat} {h : Bool}
    (ht : t ≠ 0xFF) (hp : s.ts t = .lB tmp h)
    (ho : s.owner = t ∨ s.owner = 0xFF) (hz : tmp = 0) (hI : Inv s) :
    Inv ⟨s.state, s.owner, steal t s.mon,
      Function.update s.ts t (.lC h)⟩ :=
  inv_simple ht hI
    (by intro hq; rw [hp]; simpa [acquired] using hq)
    (by intro hq
        exact hI.j2 t (by rw [hp]; simpa [heldStrong, acquired] using hq))
    (by intro b; simp)
    (by simp)
    (by intro e hne; have hx := hI.j3 hne; rw [e, hp] at hx
        simpa [acquired] using hx)
    (fun t' hh => (steal_eq_some hh).1)
    (by intro tmp' h' hm' hpe; simp at hpe)
    (by intro h' hm' _
        have hmon := (steal_eq_some hm').2
        refine ⟨?_, ?_⟩
        · rw [hI.j4b t tmp h hmon hp]
          exact hz
        · rcases ho with h1 | h1
          · exact Or.inr h1
          · exact Or.inl h1)
    (by simp) (by simp) (by simp)

/-- Invariant preservation: `mutex_lock`'s `__STREXB` failing spuriously
(lines 141-144). -/
theorem inv_lock_strex_fail {s : SysState} {t : Nat} {h : Bool}
    (ht : t ≠ 0xFF) (hp : s.ts t = .lC h) (hI : Inv s) :
    Inv ⟨s.state, s.owner, none, Function.update s.ts t (.lA h)⟩ :=
  inv_simple ht hI
    (by intro hq; rw [hp]; simpa [acquired] using hq)
    (by intro hq
        exact hI.j2 t (by rw [hp]; simpa [heldStrong, acquired] using hq))
    (by intro b; simp)
    (by simp)
    (by intro e hne; have hx := hI.j3 hne; rw [e, hp] at hx
        simpa [acquired] using hx)
    (by intro t' hh; cases hh)
    (by intro tmp' h' hm' hpe; simp at hpe)
    (by intro h' hm' hpe; simp at hpe)
    (by simp) (by simp) (by simp)

/-- Invariant preservation: `mutex_unlock`'s first `__LDREXB`
(line 180). -/
theorem inv_unlock_ldrex {s : SysState} {t : Nat} {h : Bool}
    (ht : t ≠ 0xFF) (hp : s.ts t = .uA h) (hI : Inv s) :
    Inv ⟨s.state, s.owner, some t,
      Function.update s.ts t (.uB s.state h)⟩ :=
  inv_simple ht hI
    (by intro hq; rw [hp]; simpa [acquired] using hq)
    (by intro hq
        exact hI.j2 t (by rw [hp]; simpa [heldStrong, acquired] using hq))
    (by intro b; simp)
    (by simp)
    (by intro e hne; have hx := hI.j3 hne; rw [e, hp] at hx
        simpa [acquired] using hx)
    (fun t' hh => (Option.some.inj hh).symm)
    (by intro tmp' h' hm' hpe; simp at hpe)
    (by intro h' hm' hpe; simp at hpe)
    (by simp) (by simp) (by simp)

/-- Invariant preservation: `mutex_unlock` rejecting a non-owner with
`E_BUSY` (lines 182-186). -/
theorem inv_unlock_owner_fail {s : SysState} {t tmp : Nat} {h : Bool}
    (ht : t ≠ 0xFF) (hp : s.ts t = .uB tmp h) (ho : s.owner ≠ t)
    (hI : Inv s) :
    Inv ⟨s.state, s.owner, none,
      Function.update s.ts t (if h then .holding else .idle)⟩ :=
  inv_simple ht hI
    (by intro hq; rw [hp]; cases h <;> simp_all [acquired])
    (by intro hq
        cases h
        · simp [heldStrong] at hq
        · exact absurd (hI.j2 t (by rw [hp]; rfl)).2 ho)
    (by intro b; cases h <;> simp)
    (by cases h <;> simp)
    (fun e _ => absurd e ho)
    (by intro t' hh; cases hh)
    (by intro tmp' h' hm' hpe; cases h <;> simp at hpe)
    (by intro h' hm' hpe; cases h <;> simp at hpe)
    (by cases h <;> simp) (by cases h <;> simp) (by cases h <;> simp)

/-- Invariant preservation: `mutex_unlock`'s already-unlocked early return
(lines 188-192). -/
theorem inv_unlock_noop {s : SysState} {t tmp : Nat} {h : Bool}
    (ht : t ≠ 0xFF) (hp : s.ts t = .uB tmp h) (_ho : s.owner = t)
    (_hz : tmp = 0) (hI : Inv s) :
    Inv ⟨s.state, s.owner, none,
      Function.update s.ts t (if h then .holding else .idle)⟩ :=
  inv_simple ht hI
    (by intro hq; rw [hp]; cases h <;> simp_all [acquired])
    (by intro hq
        cases h
        · simp [heldStrong] at hq
        · exact hI.j2 t (by rw [hp]; rfl))
    (by intro b; cases h <;> simp)
    (by cases h <;> simp)
    (by intro e hne; have hx := hI.j3 hne; rw [e, hp] at hx
        cases h <;> simp_all [acquired])
    (by intro t' hh; cases hh)
    (by intro tmp' h' hm' hpe; cases h <;> simp at hpe)
    (by intro h' hm' hpe; cases h <;> simp at hpe)
    (by cases h <;> simp) (by cases h <;> simp) (by cases h <;> simp)

/-- Invariant preservation: the owner entering `mutex_unlock`'s retry loop
(lines 182, 188, 195). -/
theorem inv_unlock_to_loop {s : SysState} {t tmp : Nat} {h : Bool}
    (ht : t ≠ 0xFF) (hp : s.ts t = .uB tmp h) (ho : s.owner = t)
    (_hz : tmp ≠ 0) (hI : Inv s) :
    Inv ⟨s.state, s.owner, steal t s.mon,
      Function.update s.ts t (.uD h)⟩ := by
  have hh : h = true := by
    have hne : s.owner ≠ 0xFF := by rw [ho]; exact ht
    have hx := hI.j3 hne
    rw [ho, hp] at hx
    simpa [acquired] using hx
  exact inv_simple ht hI
    (by intro hq; rw [hp]; simpa [acquired] using hq)
    (by intro hq
        exact hI.j2 t (by rw [hp]; simpa [heldStrong, acquired] using hq))
    (by intro b; simp)
    (by simp)
    (by intro e hne; have hx := hI.j3 hne; rw [e, hp] at hx
        simpa [acquired] using hx)
    (fun t' hh' => (steal_eq_some hh').1)
    (by intro tmp' h' hm' hpe; simp at hpe)
    (by intro h' hm' hpe; simp at hpe)
    (by rw [hh]; simp) (by simp) (by simp)

/-- Invariant preservation: the `__LDREXB` inside `mutex_unlock`'s retry
loop (line 198). -/
theorem inv_unlock_loop_ldrex {s : SysState} {t : Nat} {h : Bool}
    (ht : t ≠ 0xFF) (hp : s.ts t = .uD h) (hI : Inv s) :
    Inv ⟨s.state, s.owner, some t, Function.update s.ts t (.uE h)⟩ := by
  have hh : h = true := by
    cases h
    · exact absurd hp (hI.j5d t)
    · rfl
  exact inv_simple ht hI
    (by intro hq; rw [hp]; simpa [acquired] using hq)
    (by intro hq
        exact hI.j2 t (by rw [hp]; simpa [heldStrong, acquired] using hq))
    (by intro b; simp)
    (by simp)
    (by intro e hne; have hx := hI.j3 hne; rw [e, hp] at hx
        simpa [acquired] using hx)
    (fun t' hh' => (Option.some.inj hh').symm)
    (by intro tmp' h' hm' hpe; simp at hpe)
    (by intro h' hm' hpe; simp at hpe)
    (by simp) (by rw [hh]; simp) (by simp)

/-- Invariant preservation: the `__STREXB 0` in `mutex_unlock`'s retry
loop failing spuriously (lines 199-200). -/
theorem inv_unlock_strex_fail {s : SysState} {t : Nat} {h : Bool}
    (ht : t ≠ 0xFF) (hp : s.ts t = .uE h) (hI : Inv s) :
    Inv ⟨s.state, s.owner, none, Function.update s.ts t (.uD h)⟩ := by
  have hh : h = true := by
    cases h
    · exact absurd hp (hI.j5e t)
    · rfl
  exact inv_simple ht hI
    (by intro hq; rw [hp]; simpa [acquired] using hq)
    (by intro hq
        exact hI.j2 t (by rw [hp]; simpa [heldStrong, acquired] using hq))
    (by intro b; simp)
    (by simp)
    (by intro e hne; have hx := hI.j3 hne; rw [e, hp] at hx
        simpa [acquired] using hx)
    (by intro t' hh'; cases hh')
    (by intro tmp' h' hm' hpe; simp at hpe)
    (by intro h' hm' hpe; simp at hpe)
    (by rw [hh]; simp) (by simp) (by simp)

/-- Invariant preservation: `mutex_lock`'s `__STREXB 1` succeeding
(lines 134-136) — the acquisition step. -/
theorem inv_lock_strex_ok {s : SysState} {t : Nat} {h : Bool}
    (ht : t ≠ 0xFF) (hp : s.ts t = .lC h) (hm : s.mon = some t)
    (hI : Inv s) :
    Inv ⟨1, s.owner, none, Function.update s.ts t (.lD h)⟩ := by
  obtain ⟨j0, j1, j2, j2d, j2f, j3, j4b, j4c, j5d, j5e, j5f⟩ := hI
  have hfacts := j4c t h hm hp
  have key : ∀ t', t' ≠ t → acquired (s.ts t') = true → False := by
    intro t' hne hacq
    rcases acquired_cases hacq with hhs | ⟨b, hb⟩ | hf
    · have h1 := (j2 t' hhs).1
      have h0 := hfacts.1
      omega
    · have h1 := j2d t' b hb
      have h0 := hfacts.1
      omega
    · obtain ⟨_, hown⟩ := j2f t' hf
      have ht255 : t' ≠ 0xFF := by
        intro e
        rw [e, j0] at hf
        cases hf
      rcases hfacts.2 with h255 | ht'
      · exact ht255 (by rw [← hown]; exact h255)
      · exact hne (by rw [← hown]; exact ht')
  refine ⟨?_, ?_, ?_, ?_, ?_, ?_, ?_, ?_, ?_, ?_, ?_⟩ <;> dsimp only
  · rw [Function.update_noteq (Ne.symm ht)]
    exact j0
  · have only_t : ∀ t', acquired (Function.update s.ts t (.lD h) t') = true →
        t' = t := by
      intro t' hacq
      by_cases e : t' = t
      · exact e
      · rw [Function.update_noteq e] at hacq
        exact (key t' e hacq).elim
    intro t₁ t₂ h₁ h₂
    rw [only_t t₁ h₁, only_t t₂ h₂]
  · intro t' hq
    by_cases e : t' = t
    · rw [e, Function.update_same] at hq
      simp [heldStrong] at hq
    · rw [Function.update_noteq e] at hq
      exact ⟨rfl, (j2 t' hq).2⟩
  · intro t' h' _
    rfl
  · intro t' he'
    by_cases e : t' = t
    · rw [e, Function.update_same] at he'
      simp at he'
    · rw [Function.update_noteq e] at he'
      exact (key t' e (by rw [he']; rfl)).elim
  · intro hne
    by_cases e : s.owner = t
    · rw [e, Function.update_same]
      rfl
    · rw [Function.update_noteq e]
      exact j3 hne
  · intro t' tmp' h' hm' _
    cases hm'
  · intro t' h' hm' _
    cases hm'
  · intro t'
    by_cases e : t' = t
    · rw [e, Function.update_same]
      simp
    · rw [Function.update_noteq e]
      exact j5d t'
  · intro t'
    by_cases e : t' = t
    · rw [e, Function.update_same]
      simp
    · rw [Function.update_noteq e]
      exact j5e t'
  · intro t'
    by_cases e : t' = t
    · rw [e, Function.update_same]
      simp
    · rw [Function.update_noteq e]
      exact j5f t'

/-- Invariant preservation: `mutex_lock` recording the caller as owner and
returning 0 (lines 138-139). -/
theorem inv_lock_set_owner {s : SysState} {t : Nat} {h : Bool}
    (ht : t ≠ 0xFF) (hp : s.ts t = .lD h) (hI : Inv s) :
    Inv ⟨s.state, t, steal t s.mon, Function.update s.ts t .holding⟩ := by
  obtain ⟨j0, j1, j2, j2d, j2f, j3, j4b, j4c, j5d, j5e, j5f⟩ := hI
  have hat : acquired (s.ts t) = true := by rw [hp]; rfl
  refine ⟨?_, ?_, ?_, ?_, ?_, ?_, ?_, ?_, ?_, ?_, ?_⟩ <;> dsimp only
  · rw [Function.update_noteq (Ne.symm ht)]
    exact j0
  · exact j1_preserve j1 (fun _ => hat)
  · intro t' hq
    by_cases e : t' = t
    · rw [e]
      exact ⟨j2d t h hp, rfl⟩
    · rw [Function.update_noteq e] at hq
      exact absurd (j1 t' t (acquired_of_heldStrong hq) hat) e
  · intro t' h' he'
    by_cases e : t' = t
    · rw [e, Function.update_same] at he'
      cases he'
    · rw [Function.update_noteq e] at he'
      exact j2d t' h' he'
  · intro t' he'
    by_cases e : t' = t
    · rw [e, Function.update_same] at he'
      cases he'
    · rw [Function.update_noteq e] at he'
      have ha' : acquired (s.ts t') = true := by rw [he']; rfl
      exact absurd (j1 t' t ha' hat) e
  · intro _
    rw [Function.update_same]
    rfl
  · intro t' tmp' h' hm' he'
    rcases steal_eq_some hm' with ⟨rfl, _⟩
    rw [Function.update_same] at he'
    cases he'
  · intro t' h' hm' he'
    rcases steal_eq_some hm' with ⟨rfl, _⟩
    rw [Function.update_same] at he'
    cases he'
  · intro t'
    by_cases e : t' = t
    · rw [e, Function.update_same]
      simp
    · rw [Function.update_noteq e]
      exact j5d t'
  · intro t'
    by_cases e : t' = t
    · rw [e, Function.update_same]
      simp
    · rw [Function.update_noteq e]
      exact j5e t'
  · intro t'
    by_cases e : t' = t
    · rw [e, Function.update_same]
      simp
    · rw [Function.update_noteq e]
      exact j5f t'

/-- Invariant preservation: the `__STREXB 0` in `mutex_unlock`'s retry
loop succeeding (lines 199-200) — the release's state store. -/
theorem inv_unlock_strex_ok {s : SysState} {t : Nat} {h : Bool}
    (ht : t ≠ 0xFF) (hp : s.ts t = .uE h) (_hm : s.mon = some t)
    (hI : Inv s) :
    Inv ⟨0, s.owner, none, Function.update s.ts t (.uF h)⟩ := by
  obtain ⟨j0, j1, j2, j2d, j2f, j3, j4b, j4c, j5d, j5e, j5f⟩ := hI
  have hh : h = true := by
    cases h
    · exact absurd hp (j5e t)
    · rfl
  subst hh
  have hfacts := j2 t (by rw [hp]; rfl)
  have hat : acquired (s.ts t) = true := by rw [hp]; rfl
  refine ⟨?_, ?_, ?_, ?_, ?_, ?_, ?_, ?_, ?_, ?_, ?_⟩ <;> dsimp only
  · rw [Function.update_noteq (Ne.symm ht)]
    exact j0
  · exact j1_preserve j1 (fun _ => hat)
  · intro t' hq
    by_cases e : t' = t
    · rw [e, Function.update_same] at hq
      simp [heldStrong] at hq
    · rw [Function.update_noteq e] at hq
      exact absurd (j1 t' t (acquired_of_heldStrong hq) hat) e
  · intro t' h' he'
    by_cases e : t' = t
    · rw [e, Function.update_same] at he'
      cases he'
    · rw [Function.update_noteq e] at he'
      have ha' : acquired (s.ts t') = true := by rw [he']; rfl
      exact absurd (j1 t' t ha' hat) e
  · intro t' he'
    by_cases e : t' = t
    · rw [e]
      exact ⟨rfl, hfacts.2⟩
    · rw [Function.update_noteq e] at he'
      have ha' : acquired (s.ts t') = true := by rw [he']; rfl
      exact absurd (j1 t' t ha' hat) e
  · intro _
    rw [hfacts.2, Function.update_same]
    rfl
  · intro t' tmp' h' hm' _
    cases hm'
  · intro t' h' hm' _
    cases hm'
  · intro t'
    by_cases e : t' = t
    · rw [e, Function.update_same]
      simp
    · rw [Function.update_noteq e]
      exact j5d t'
  · intro t'
    by_cases e : t' = t
    · rw [e, Function.update_same]
      simp
    · rw [Function.update_noteq e]
      exact j5e t'
  · intro t'
    by_cases e : t' = t
    · rw [e, Function.update_same]
      simp
    · rw [Function.update_noteq e]
      exact j5f t'

/-- Invariant preservation: `mutex_unlock` restoring the unowned sentinel
and returning 0 (lines 202-204) — the release's owner store. -/
theorem inv_unlock_set_owner {s : SysState} {t : Nat} {h : Bool}
    (ht : t ≠ 0xFF) (hp : s.ts t = .uF h) (hI : Inv s) :
    Inv ⟨s.state, 0xFF, steal t s.mon, Function.update s.ts t .idle⟩ := by
  obtain ⟨j0, j1, j2, j2d, j2f, j3, j4b, j4c, j5d, j5e, j5f⟩ := hI
  have hh : h = true := by
    cases h
    · exact absurd hp (j5f t)
    · rfl
  subst hh
  have hat : acquired (s.ts t) = true := by rw [hp]; rfl
  refine ⟨?_, ?_, ?_, ?_, ?_, ?_, ?_, ?_, ?_, ?_, ?_⟩ <;> dsimp only
  · rw [Function.update_noteq (Ne.symm ht)]
    exact j0
  · exact j1_preserve j1 (by intro hq; simp [acquired] at hq)
  · intro t' hq
    by_cases e : t' = t
    · rw [e, Function.update_same] at hq
      simp [heldStrong] at hq
    · rw [Function.update_noteq e] at hq
      exact absurd (j1 t' t (acquired_of_heldStrong hq) hat) e
  · intro t' h' he'
    by_cases e : t' = t
    · rw [e, Function.update_same] at he'
      cases he'
    · rw [Function.update_noteq e] at he'
      exact j2d t' h' he'
  · intro t' he'
    by_cases e : t' = t
    · rw [e, Function.update_same] at he'
      cases he'
    · rw [Function.update_noteq e] at he'
      have ha' : acquired (s.ts t') = true := by rw [he']; rfl
      exact absurd (j1 t' t ha' hat) e
  · intro hne
    exact absurd rfl hne
  · intro t' tmp' h' hm' he'
    rcases steal_eq_some hm' with ⟨rfl, _⟩
    rw [Function.update_same] at he'
    cases he'
  · intro t' h' hm' he'
    rcases steal_eq_some hm' with ⟨rfl, _⟩
    rw [Function.update_same] at he'
    cases he'
  · intro t'
    by_cases e : t' = t
    · rw [e, Function.update_same]
      simp
    · rw [Function.update_noteq e]
      exact j5d t'
  · intro t'
    by_cases e : t' = t
    · rw [e, Function.update_same]
      simp
    · rw [Function.update_noteq e]
      exact j5e t'
  · intro t'
    by_cases e : t' = t
    · rw [e, Function.update_same]
      simp
    · rw [Function.update_noteq e]
      exact j5f t'

/-- The invariant is preserved by every step. -/
theorem inv_step {s s' : SysState} (hI : Inv s) (hS : Step s s') :
    Inv s' := by
  cases hS with
  | call_lock_idle t ht hp => exact inv_call_lock_idle ht hp hI
  | call_lock_holding t ht hp => exact inv_call_lock_holding ht hp hI
  | call_unlock_idle t ht hp => exact inv_call_unlock_idle ht hp hI
  | call_unlock_holding t ht hp => exact inv_call_unlock_holding ht hp hI
  | lock_ldrex t h ht hp => exact inv_lock_ldrex ht hp hI
  | lock_retry t tmp h ht hp hc => exact inv_lock_retry ht hp hI
  | lock_check_ok t tmp h ht hp ho hz =>
    exact inv_lock_check_ok ht hp ho hz hI
  | lock_strex_ok t h ht hp hm => exact inv_lock_strex_ok ht hp hm hI
  | lock_strex_fail t h ht hp hm => exact inv_lock_strex_fail ht hp hI
  | lock_set_owner t h ht hp => exact inv_lock_set_owner ht hp hI
  | unlock_ldrex t h ht hp => exact inv_unlock_ldrex ht hp hI
  | unlock_owner_fail t tmp h ht hp ho =>
    exact inv_unlock_owner_fail ht hp ho hI
  | unlock_noop t tmp h ht hp ho hz => exact inv_unlock_noop ht hp ho hz hI
  | unlock_to_loop t tmp h ht hp ho hz =>
    exact inv_unlock_to_loop ht hp ho hz hI
  | unlock_loop_ldrex t h ht hp => exact inv_unlock_loop_ldrex ht hp hI
  | unlock_strex_ok t h ht hp hm => exact inv_unlock_strex_ok ht hp hm hI
  | unlock_strex_fail t h ht hp hm => exact inv_unlock_strex_fail ht hp hI
  | unlock_set_owner t h ht hp => exact inv_unlock_set_owner ht hp hI

/-- The invariant holds in every reachable state. -/
theorem inv_reach {s : SysState} (h : Reach s) : Inv s := by
  induction h with
  | init => exact inv_init
  | step _ hs ih => exact inv_step ih hs

/-- C9: mutual exclusion.  In every state reachable by any interleaving of
`mutex_lock` and `mutex_unlock` steps by any set of threads, at most one
thread has acquired the binary lock and not yet released it — so at most
one thread at a time ever observes itself as the lock's owner. -/
theorem mutex_lock_mutual_exclusion (s : SysState) (hs : Reach s)
    (t₁ t₂ : Nat) (h₁ : acquired (s.ts t₁)) (h₂ : acquired (s.ts t₂)) :
    t₁ = t₂ :=
  (inv_reach hs).j1 t₁ t₂ h₁ h₂

/-- The concrete five-step trace (thread 0 acquiring the lock from the
initial state) reaches `w5`. -/
theorem reach_w5 : Reach w5 :=
  Reach.step
    (Reach.step
      (Reach.step
        (Reach.step
          (Reach.step Reach.init
            (Step.call_lock_idle init 0 (by decide) rfl))
          (Step.lock_ldrex w1 0 false (by decide) rfl))
        (Step.lock_check_ok w2 0 0 false (by decide) rfl (Or.inr rfl) rfl))
      (Step.lock_strex_ok w3 0 false (by decide) rfl rfl))
    (Step.lock_set_owner w4 0 false (by decide) rfl)

/-- Closed instance of the C9 theorem: in the reachable state `w5`,
thread 0 has acquired the lock, and the theorem identifies any two
acquiring threads there. -/
theorem mutex_lock_mutual_exclusion_witness :
    acquired (w5.ts 0) = true ∧ (0 : Nat) = 0 :=
  ⟨rfl, mutex_lock_mutual_exclusion w5 reach_w5 0 0 rfl rfl⟩

end CMRX
